import Mathlib

/-!
Shallow embedding of the sudoku solver service.

The canonical solving engine lives in `src/controllers/sudoku-solver.js`
(class `SudokuSolver`); a superseded draft copy of the same class lives in an
unnamed file, embedded below under the `Draft` namespace.  The HTTP routes
(`POST /api/check`, `POST /api/solve`) are embedded as pure functions from the
relevant request-body fields to an inductive response type.

Representation choices:
* An 81-character puzzle string is kept as a `String`; the 9x9 grid produced
  by `stringToGrid` is represented flattened in row-major order as
  `List Char`, so that `grid[r][c]` of the source is `cellAt g r c`
  (entry `9*r + c`).  For the 81-character strings that every claim
  quantifies over this coincides with both sources' chunking
  (`stringToGrid` of the canonical engine pushes characters 0..80 into rows
  of 9; the draft slices 9 substrings of length 9), and `grid.flat().join("")`
  is `gridToString`.
* JS single-character strings (the `value` argument compared against grid
  entries with `===`, the row letter and column digit of a coordinate) are
  embedded as `Char`.
* The mutable backtracking recursion of `solve` (function `solveGrid`) is
  embedded as a fuel-indexed pure recursion `solveGridFuel`; `solve` invokes
  it with fuel 82, and the lemmas below show that fuel 82 can never be
  exhausted on an 81-cell grid (each recursive level fills one empty cell),
  so the embedding computes exactly what the source's unbounded recursion
  computes on the domain of the claims.
-/

namespace Sudoku

/-- Entry `grid[r][c]` of the flattened row-major grid: position `9*r + c`.
The default `'?'` is never reachable for the in-range accesses of length-81
grids that the source performs. -/
def cellAt (g : List Char) (r c : Nat) : Char := g.getD (9 * r + c) '?'

/-- Assignment `grid[r][c] = v` on the flattened grid. -/
def setCell (g : List Char) (r c : Nat) (v : Char) : List Char := g.set (9 * r + c) v

/-- Embeds `stringToGrid` (both copies): the 9x9 grid of characters of the
puzzle string, kept flattened in row-major order. -/
def stringToGrid (s : String) : List Char := s.data

/-- Embeds `grid.flat().join("")`: re-serialisation of a grid. -/
def gridToString (g : List Char) : String := String.mk g

/-- Embeds the canonical `letterToNumber`:
`row.toUpperCase().charCodeAt(0) - "A".charCodeAt(0)`. -/
def letterToNumber (row : Char) : Nat := row.toUpper.toNat - 'A'.toNat

/-- Embeds `parseInt(column, 10) - 1` for the single-digit column strings the
source applies it to. -/
def columnToIndex (column : Char) : Nat := column.toNat - '0'.toNat - 1

/-- Embeds the canonical `checkRowPlacement`.  The loop scans the 9 cells of
the row; at the target cell it fails when the cell holds a value that is
neither `'.'` nor `value` ("cannot overwrite a different number"), at every
other cell it fails when the cell holds `value`. -/
def checkRowPlacement (puzzleString : String) (row column value : Char) : Bool :=
  let grid := stringToGrid puzzleString
  let rowIndex := letterToNumber row
  let colIndex := columnToIndex column
  (List.range 9).all fun i =>
    if i = colIndex then
      decide (cellAt grid rowIndex i = '.' ∨ cellAt grid rowIndex i = value)
    else
      decide (cellAt grid rowIndex i ≠ value)

/-- Embeds the canonical `checkColPlacement` (same shape, down the column). -/
def checkColPlacement (puzzleString : String) (row column value : Char) : Bool :=
  let grid := stringToGrid puzzleString
  let rowIndex := letterToNumber row
  let colIndex := columnToIndex column
  (List.range 9).all fun i =>
    if i = rowIndex then
      decide (cellAt grid i colIndex = '.' ∨ cellAt grid i colIndex = value)
    else
      decide (cellAt grid i colIndex ≠ value)

/-- Embeds the canonical `checkRegionPlacement`: scans the 3x3 box whose
top-left corner is `(floor(rowIndex/3)*3, floor(colIndex/3)*3)`. -/
def checkRegionPlacement (puzzleString : String) (row column value : Char) : Bool :=
  let grid := stringToGrid puzzleString
  let rowIndex := letterToNumber row
  let colIndex := columnToIndex column
  let startRow := rowIndex / 3 * 3
  let startCol := colIndex / 3 * 3
  (List.range 3).all fun i =>
    (List.range 3).all fun j =>
      if startRow + i = rowIndex ∧ startCol + j = colIndex then
        decide (cellAt grid (startRow + i) (startCol + j) = '.' ∨
          cellAt grid (startRow + i) (startCol + j) = value)
      else
        decide (cellAt grid (startRow + i) (startCol + j) ≠ value)

/-- The digit characters `'1'` through `'9'`, the candidates
`num.toString()` tried by the search loop in ascending order. -/
def sudokuDigits : List Char := ['1', '2', '3', '4', '5', '6', '7', '8', '9']

/-- Embeds the inner `findEmpty` of `solve`: first cell equal to `'.'` in
row-major scan order, as a `(row, col)` pair. -/
def findEmpty (g : List Char) : Option (Nat × Nat) :=
  (List.range 9).findSome? fun r =>
    (List.range 9).findSome? fun c =>
      if cellAt g r c = '.' then some (r, c) else none

/-- Embeds the inner `isValidPlacement` of `solve`: `num` appears in no cell
of the row, no cell of the column and no cell of the 3x3 box. -/
def isValidPlacement (g : List Char) (row col : Nat) (num : Char) : Bool :=
  ((List.range 9).all fun x => decide (cellAt g row x ≠ num)) &&
  ((List.range 9).all fun x => decide (cellAt g x col ≠ num)) &&
  (let startRow := row / 3 * 3
   let startCol := col / 3 * 3
   (List.range 3).all fun i =>
     (List.range 3).all fun j =>
       decide (cellAt g (startRow + i) (startCol + j) ≠ num))

/-- The digit loop of the inner `solveGrid`: try each candidate in order;
on a legal candidate place it and recurse (`solver` is the recursive call at
the next fuel level), and on recursive failure the source resets the cell to
`'.'` and moves on — functionally, try the next candidate on the unchanged
grid. -/
def tryDigits (solver : List Char → Option (List Char)) (g : List Char)
    (row col : Nat) : List Char → Option (List Char)
  | [] => none
  | d :: ds =>
    if isValidPlacement g row col d then
      match solver (setCell g row col d) with
      | some solved => some solved
      | none => tryDigits solver g row col ds
    else
      tryDigits solver g row col ds

/-- Embeds the inner `solveGrid` of `solve`, indexed by fuel: with no empty
cell the grid is returned as the solution, otherwise the nine digits are
tried at the first empty cell. -/
def solveGridFuel : Nat → List Char → Option (List Char)
  | 0, _ => none
  | fuel + 1, g =>
    match findEmpty g with
    | none => some g
    | some (row, col) => tryDigits (solveGridFuel fuel) g row col sudokuDigits

/-- Embeds `String.fromCharCode(65 + r)`. -/
def rowLetter (r : Nat) : Char := Char.ofNat (65 + r)

/-- Embeds `(c + 1).toString()` for `c < 9`: the digit character of column
index `c`. -/
def columnDigit (c : Nat) : Char := Char.ofNat (49 + c)

/-- Embeds the phase-1 pre-validation loop at the top of the canonical
`solve`: every filled cell is temporarily blanked and its own value replayed
through the three public placement checks against the rest of the puzzle. -/
def preValidate (g : List Char) : Bool :=
  (List.range 9).all fun r =>
    (List.range 9).all fun c =>
      if cellAt g r c = '.' then true
      else
        let val := cellAt g r c
        let gBlank := setCell g r c '.'
        checkRowPlacement (gridToString gBlank) (rowLetter r) (columnDigit c) val &&
        checkColPlacement (gridToString gBlank) (rowLetter r) (columnDigit c) val &&
        checkRegionPlacement (gridToString gBlank) (rowLetter r) (columnDigit c) val

/-- Embeds the canonical `solve`: phase-1 pre-validation of the givens, then
the backtracking search; `none` is the source's `false` return. -/
def solve (puzzleString : String) : Option String :=
  let grid := stringToGrid puzzleString
  if preValidate grid then
    match solveGridFuel 82 grid with
    | some solved => some (gridToString solved)
    | none => none
  else
    none

namespace Draft

/-- Embeds the draft copy's `letterToNumber`:
`letter.charCodeAt(0) - "A".charCodeAt(0)` (no upper-casing). -/
def letterToNumber (row : Char) : Nat := row.toNat - 'A'.toNat

/-- Embeds the draft copy's `checkRowPlacement`: a conflict whenever `value`
appears anywhere in the row, the target cell included. -/
def checkRowPlacement (puzzleString : String) (row column value : Char) : Bool :=
  let grid := stringToGrid puzzleString
  let rowIndex := letterToNumber row
  let _colIndex := columnToIndex column
  (List.range 9).all fun c => decide (cellAt grid rowIndex c ≠ value)

/-- Embeds the draft copy's `checkColPlacement`. -/
def checkColPlacement (puzzleString : String) (row column value : Char) : Bool :=
  let grid := stringToGrid puzzleString
  let _rowIndex := letterToNumber row
  let colIndex := columnToIndex column
  (List.range 9).all fun r => decide (cellAt grid r colIndex ≠ value)

/-- Embeds the draft copy's `checkRegionPlacement`: scans all 9 cells of the
target's 3x3 box, the target cell included. -/
def checkRegionPlacement (puzzleString : String) (row column value : Char) : Bool :=
  let grid := stringToGrid puzzleString
  let rowIndex := letterToNumber row
  let colIndex := columnToIndex column
  let startRow := rowIndex / 3 * 3
  let startCol := colIndex / 3 * 3
  (List.range 3).all fun i =>
    (List.range 3).all fun j =>
      decide (cellAt grid (startRow + i) (startCol + j) ≠ value)

/-- The phase-1 pre-validation loop of the draft copy's `solve`; textually
the same loop as the canonical one but invoking the draft's own placement
checks. -/
def preValidate (g : List Char) : Bool :=
  (List.range 9).all fun r =>
    (List.range 9).all fun c =>
      if cellAt g r c = '.' then true
      else
        let val := cellAt g r c
        let gBlank := setCell g r c '.'
        checkRowPlacement (gridToString gBlank) (rowLetter r) (columnDigit c) val &&
        checkColPlacement (gridToString gBlank) (rowLetter r) (columnDigit c) val &&
        checkRegionPlacement (gridToString gBlank) (rowLetter r) (columnDigit c) val

/-- Embeds the draft copy's `solve`.  Its inner `solveGrid` / `findEmpty` /
`isValidPlacement` closures are character-for-character identical to the
canonical ones, so the shared embeddings above are reused; only the phase-1
loop differs, through the draft's placement checks. -/
def solve (puzzleString : String) : Option String :=
  let grid := stringToGrid puzzleString
  if Draft.preValidate grid then
    match solveGridFuel 82 grid with
    | some solved => some (gridToString solved)
    | none => none
  else
    none

end Draft

/-! ## The HTTP route layer

`POST /api/check` and `POST /api/solve` are embedded as functions of the
request-body fields they read; a field absent from the JSON body is `none`.
JS falsiness of a string field (`!puzzle`) is absent-or-empty. -/

/-- A JSON response body of `POST /api/check`: an error object, the body
`{"valid": true}` (no conflict key), or `{"valid": false, "conflict": [...]}`. -/
inductive CheckResponse where
  | error (msg : String)
  | valid
  | invalid (conflict : List String)
  deriving DecidableEq

/-- A JSON response body of `POST /api/solve`. -/
inductive SolveResponse where
  | error (msg : String)
  | solution (s : String)
  deriving DecidableEq

/-- JS falsiness of an optional string field: absent or empty. -/
def falsy (s : Option String) : Bool :=
  match s with
  | none => true
  | some t => t.isEmpty

/-- The character class of the regex `/[^1-9.]/` (negated): a digit `1`-`9`
or `'.'`. -/
def isPuzzleChar (ch : Char) : Bool :=
  decide (('1' ≤ ch ∧ ch ≤ '9') ∨ ch = '.')

/-- Embeds the engine's `validate`: `none` for a valid puzzle, `some msg`
for the first failing check's error message (missing input, then character
set, then length). -/
def validate (puzzleString : Option String) : Option String :=
  match puzzleString with
  | none => some "Required field missing"
  | some s =>
    if s.isEmpty then some "Required field missing"
    else if s.data.any fun ch => !isPuzzleChar ch then some "Invalid characters in puzzle"
    else if s.length ≠ 81 then some "Expected puzzle to be 81 characters long"
    else none

/-- First character class of the coordinate regex `/^[A-I][1-9]$/i`:
a letter `A`-`I`, case-insensitively. -/
def isRowLetter (ch : Char) : Bool :=
  decide (('A' ≤ ch ∧ ch ≤ 'I') ∨ ('a' ≤ ch ∧ ch ≤ 'i'))

/-- A digit `1`-`9`, the second character class of the coordinate regex and
the whole of the value regex `/^[1-9]$/`. -/
def isNonzeroDigit (ch : Char) : Bool :=
  decide ('1' ≤ ch ∧ ch ≤ '9')

/-- Embeds the route's coordinate test `/^[A-I][1-9]$/i.test(coordinate)`. -/
def coordinateOK (coordinate : String) : Bool :=
  decide (coordinate.length = 2) &&
  isRowLetter (coordinate.data.getD 0 ' ') &&
  isNonzeroDigit (coordinate.data.getD 1 ' ')

/-- Embeds the route's value test `/^[1-9]$/.test(value)`. -/
def valueOK (value : String) : Bool :=
  decide (value.length = 1) && isNonzeroDigit (value.data.getD 0 ' ')

/-- The conflict list built by the handler after all input validation: the
three placement checks are invoked on row letter `coordinate.slice(0, 1)`,
column digit `coordinate.slice(1)` and the value character, and each failing
axis is pushed in the order row, column, region. -/
def conflictList (p co v : String) : List String :=
  let row := co.data.getD 0 ' '
  let column := co.data.getD 1 ' '
  let valueChar := v.data.getD 0 ' '
  (if !checkRowPlacement p row column valueChar then ["row"] else []) ++
  (if !checkColPlacement p row column valueChar then ["column"] else []) ++
  (if !checkRegionPlacement p row column valueChar then ["region"] else [])

/-- The tail of the `POST /api/check` handler: `{"valid": true}` when the
conflict list is empty, `{"valid": false, "conflict": [...]}` otherwise. -/
def conflictResponse (p co v : String) : CheckResponse :=
  if (conflictList p co v).isEmpty then CheckResponse.valid
  else CheckResponse.invalid (conflictList p co v)

/-- Embeds the `POST /api/check` handler: missing-fields check, puzzle
validation, coordinate format, value format, then the three placement checks
with the conflict list built in the order row, column, region. -/
def apiCheck (puzzle coordinate value : Option String) : CheckResponse :=
  if falsy puzzle || falsy coordinate || falsy value then
    CheckResponse.error "Required field(s) missing"
  else
    let p := puzzle.getD ""
    let coord := coordinate.getD ""
    let v := value.getD ""
    match validate (some p) with
    | some e => CheckResponse.error e
    | none =>
      if !coordinateOK coord then CheckResponse.error "Invalid coordinate"
      else if !valueOK v then CheckResponse.error "Invalid value"
      else conflictResponse p coord v

/-- Embeds the `POST /api/solve` handler. -/
def apiSolve (puzzle : Option String) : SolveResponse :=
  match validate puzzle with
  | some e => SolveResponse.error e
  | none =>
    match solve (puzzle.getD "") with
    | none => SolveResponse.error "Puzzle cannot be solved"
    | some sol => SolveResponse.solution sol

/-! ## Specification-side predicates

These formalise the spec's vocabulary (legal grid, completion, solvability)
independently of the loops above, for the claims that compare the code
against it. -/

/-- A digit cell `'1'`-`'9'`. -/
def isDigitCell (ch : Char) : Prop := '1' ≤ ch ∧ ch ≤ '9'

instance (ch : Char) : Decidable (isDigitCell ch) := by
  unfold isDigitCell; infer_instance

/-- The puzzle-string alphabet: every character a digit or `'.'`. -/
def alphabetOK (g : List Char) : Prop := ∀ ch ∈ g, ch = '.' ∨ isDigitCell ch

instance (g : List Char) : Decidable (alphabetOK g) := by
  unfold alphabetOK; infer_instance

/-- Row uniqueness: no filled value repeated within a row. -/
def rowsOK (g : List Char) : Prop :=
  ∀ r < 9, ∀ c₁ < 9, ∀ c₂ < 9, c₁ ≠ c₂ → cellAt g r c₁ ≠ '.' →
    cellAt g r c₁ ≠ cellAt g r c₂

/-- Column uniqueness: no filled value repeated within a column. -/
def colsOK (g : List Char) : Prop :=
  ∀ c < 9, ∀ r₁ < 9, ∀ r₂ < 9, r₁ ≠ r₂ → cellAt g r₁ c ≠ '.' →
    cellAt g r₁ c ≠ cellAt g r₂ c

/-- Region uniqueness: no filled value repeated within a 3x3 box (two cells
share a box exactly when their row indices and column indices agree after
division by 3). -/
def regionsOK (g : List Char) : Prop :=
  ∀ r₁ < 9, ∀ c₁ < 9, ∀ r₂ < 9, ∀ c₂ < 9,
    r₁ / 3 = r₂ / 3 → c₁ / 3 = c₂ / 3 → ¬(r₁ = r₂ ∧ c₁ = c₂) →
    cellAt g r₁ c₁ ≠ '.' → cellAt g r₁ c₁ ≠ cellAt g r₂ c₂

/-- A legal grid: row, column and region uniqueness of the filled cells. -/
def legalGrid (g : List Char) : Prop := rowsOK g ∧ colsOK g ∧ regionsOK g

instance (g : List Char) : Decidable (rowsOK g) := by
  unfold rowsOK; exact Nat.decidableBallLT 9 _

instance (g : List Char) : Decidable (colsOK g) := by
  unfold colsOK; exact Nat.decidableBallLT 9 _

instance (g : List Char) : Decidable (regionsOK g) := by
  unfold regionsOK
  refine @Nat.decidableBallLT 9 _ ?_
  intro r₁ _
  refine @Nat.decidableBallLT 9 _ ?_
  intro c₁ _
  refine @Nat.decidableBallLT 9 _ ?_
  intro r₂ _
  exact Nat.decidableBallLT 9 _

instance (g : List Char) : Decidable (legalGrid g) := by
  unfold legalGrid; infer_instance

/-- Every cell filled with a digit. -/
def completeGrid (g : List Char) : Prop := ∀ r < 9, ∀ c < 9, isDigitCell (cellAt g r c)

instance (g : List Char) : Decidable (completeGrid g) := by
  unfold completeGrid; infer_instance

/-- Grid `g'` agrees with `g` on every filled cell of `g`. -/
def extendsGrid (g g' : List Char) : Prop :=
  ∀ r < 9, ∀ c < 9, cellAt g r c ≠ '.' → cellAt g' r c = cellAt g r c

instance (g g' : List Char) : Decidable (extendsGrid g g') := by
  unfold extendsGrid; infer_instance

/-- Some assignment of digits to the empty cells completes the grid under
row, column and region uniqueness. -/
def solvable (g : List Char) : Prop :=
  ∃ g', g'.length = 81 ∧ completeGrid g' ∧ legalGrid g' ∧ extendsGrid g g'

/-- Number of empty cells, the measure consumed by the search. -/
def emptyCount (g : List Char) : Nat := g.count '.'

/-- The per-cell replay condition that phase 1 enforces: every filled cell's
value appears nowhere else in its row, column or box. -/
def replayOK (g : List Char) : Prop :=
  ∀ r < 9, ∀ c < 9, cellAt g r c ≠ '.' →
    ((∀ i < 9, i ≠ c → cellAt g r i ≠ cellAt g r c) ∧
     (∀ i < 9, i ≠ r → cellAt g i c ≠ cellAt g r c) ∧
     (∀ r' c', r' / 3 = r / 3 → c' / 3 = c / 3 → ¬(r' = r ∧ c' = c) →
       cellAt g r' c' ≠ cellAt g r c))

/-- Spec-side description of a missing request field: absent or empty. -/
def fieldMissing (x : Option String) : Prop := x = none ∨ x = some ""

/-- Spec-side coordinate format: one letter `A`-`I` (case-insensitive)
followed by one digit `1`-`9`. -/
def coordFormatOK (co : String) : Prop :=
  co.length = 2 ∧
  (('A' ≤ co.data.getD 0 ' ' ∧ co.data.getD 0 ' ' ≤ 'I') ∨
   ('a' ≤ co.data.getD 0 ' ' ∧ co.data.getD 0 ' ' ≤ 'i')) ∧
  ('1' ≤ co.data.getD 1 ' ' ∧ co.data.getD 1 ' ' ≤ '9')

/-- Spec-side value format: a single digit `1`-`9`. -/
def valueFormatOK (v : String) : Prop :=
  v.length = 1 ∧ ('1' ≤ v.data.getD 0 ' ' ∧ v.data.getD 0 ' ' ≤ '9')

instance (x : Option String) : Decidable (fieldMissing x) := by
  unfold fieldMissing; infer_instance

instance (co : String) : Decidable (coordFormatOK co) := by
  unfold coordFormatOK; infer_instance

instance (v : String) : Decidable (valueFormatOK v) := by
  unfold valueFormatOK; infer_instance

/-! ## State-passing embedding of the placement checks

The source's placement-check methods read the puzzle string, build a local
grid from it (`stringToGrid`) and only ever read that local grid inside
their loops; no statement of theirs assigns to a caller-visible location
(JS strings are immutable and the `SudokuSolver` object has no fields).
Embedding them as state transformers over the caller-visible state — the
puzzle string — therefore returns that state unchanged alongside the
boolean result. -/

def checkRowPlacementST (state : String) (row column value : Char) : Bool × String :=
  (checkRowPlacement state row column value, state)

def checkColPlacementST (state : String) (row column value : Char) : Bool × String :=
  (checkColPlacement state row column value, state)

def checkRegionPlacementST (state : String) (row column value : Char) : Bool × String :=
  (checkRegionPlacement state row column value, state)

/-! ## Concrete example strings used by the closed instances below -/

/-- The well-known freeCodeCamp example puzzle (a valid, solvable puzzle). -/
def examplePuzzle : String :=
  "1.5..2.84..63.12.7.2..5.....9..1....8.2.3674.3.7.2..9.47...8..1..16....926914.37."

/-- An 81-character puzzle whose two leading `1`s contradict each other in
row A. -/
def contradictoryPuzzle : String :=
  "11..............................................................................."

/-- A complete, legal solution grid. -/
def solvedExample : String :=
  "123456789456789123789123456214365897365897214897214365531642978642978531978531642"

/-- `solvedExample` with its last cell blanked. -/
def nearlySolvedExample : String :=
  "12345678945678912378912345621436589736589721489721436553164297864297853197853164."

/-- A puzzle whose only given is a `1` at A1. -/
def singletonPuzzle : String :=
  "1................................................................................"

/-- A puzzle whose only given is a `5` at A1. -/
def fivePuzzle : String :=
  "5................................................................................"

/-! ## Basic grid lemmas -/

lemma index_inj {r c r' c' : Nat} (hc : c < 9) (hc' : c' < 9) :
    9 * r + c = 9 * r' + c' ↔ r = r' ∧ c = c' := by omega

lemma length_setCell (g : List Char) (r c : Nat) (v : Char) :
    (setCell g r c v).length = g.length := List.length_set g (9 * r + c) v

lemma cellAt_setCell_same {g : List Char} {r c : Nat} (v : Char) (h : 9 * r + c < g.length) :
    cellAt (setCell g r c v) r c = v := by
  unfold cellAt setCell
  simp [List.getD, List.getElem?_set_self, h]

lemma cellAt_setCell_ne {g : List Char} {r c r' c' : Nat} (v : Char)
    (h : 9 * r + c ≠ 9 * r' + c') :
    cellAt (setCell g r c v) r' c' = cellAt g r' c' := by
  unfold cellAt setCell
  simp [List.getD, List.getElem?_set_ne h]

lemma getD_eq_cellAt (g : List Char) (i : Nat) :
    g.getD i '?' = cellAt g (i / 9) (i % 9) := by
  unfold cellAt
  congr 1
  omega

lemma emptyCount_setCell_lt {g : List Char} {r c : Nat} {v : Char}
    (hin : 9 * r + c < g.length) (hdot : g.getD (9 * r + c) '?' = '.') (hv : v ≠ '.') :
    emptyCount (setCell g r c v) < emptyCount g := by
  unfold emptyCount setCell
  set i := 9 * r + c with hi
  rw [List.set_eq_take_append_cons_drop]
  simp only [hin, if_pos]
  conv_rhs => rw [show g = g.take i ++ g.getD i '?' :: g.drop (i + 1) by
    conv_lhs => rw [← List.take_append_drop i g]
    congr 1
    rw [List.getD_eq_getElem g _ hin]
    exact List.drop_eq_getElem_cons hin]
  rw [hdot]
  simp [List.count_append, List.count_cons, hv]

lemma emptyCount_le_length (g : List Char) : emptyCount g ≤ g.length := by
  unfold emptyCount
  exact List.count_le_length _ _

/-- The digit characters are exactly the `isDigitCell` characters. -/
lemma mem_sudokuDigits_iff (ch : Char) : ch ∈ sudokuDigits ↔ isDigitCell ch := by
  constructor
  · intro h
    fin_cases h <;> decide
  · rintro ⟨h1, h2⟩
    have hv1 : ('1' : Char).toNat ≤ ch.toNat := by exact_mod_cast h1
    have hv2 : ch.toNat ≤ ('9' : Char).toNat := by exact_mod_cast h2
    have h49 : ('1' : Char).toNat = 49 := by decide
    have h57 : ('9' : Char).toNat = 57 := by decide
    rw [h49] at hv1
    rw [h57] at hv2
    have hch : ch = Char.ofNat ch.toNat := (Char.ofNat_toNat ch).symm
    set n := ch.toNat with hn
    interval_cases n <;> rw [hch] <;> decide

/-! ## Characterizations of the placement checks -/

lemma checkRowPlacement_true_iff (s : String) (row column value : Char) :
    checkRowPlacement s row column value = true ↔
      ∀ i < 9,
        (i = columnToIndex column →
          cellAt (stringToGrid s) (letterToNumber row) i = '.' ∨
          cellAt (stringToGrid s) (letterToNumber row) i = value) ∧
        (i ≠ columnToIndex column →
          cellAt (stringToGrid s) (letterToNumber row) i ≠ value) := by
  unfold checkRowPlacement
  simp only [List.all_eq_true, List.mem_range]
  constructor
  · intro h i hi
    have hh := h i hi
    by_cases hic : i = columnToIndex column
    · rw [if_pos hic] at hh
      simp only [decide_eq_true_eq] at hh
      exact ⟨fun _ => hh, fun hne => absurd hic hne⟩
    · rw [if_neg hic] at hh
      simp only [decide_eq_true_eq] at hh
      exact ⟨fun he => absurd he hic, fun _ => hh⟩
  · intro h i hi
    by_cases hic : i = columnToIndex column
    · rw [if_pos hic]
      simp only [decide_eq_true_eq]
      exact (h i hi).1 hic
    · rw [if_neg hic]
      simp only [decide_eq_true_eq]
      exact (h i hi).2 hic

lemma checkColPlacement_true_iff (s : String) (row column value : Char) :
    checkColPlacement s row column value = true ↔
      ∀ i < 9,
        (i = letterToNumber row →
          cellAt (stringToGrid s) i (columnToIndex column) = '.' ∨
          cellAt (stringToGrid s) i (columnToIndex column) = value) ∧
        (i ≠ letterToNumber row →
          cellAt (stringToGrid s) i (columnToIndex column) ≠ value) := by
  unfold checkColPlacement
  simp only [List.all_eq_true, List.mem_range]
  constructor
  · intro h i hi
    have hh := h i hi
    by_cases hic : i = letterToNumber row
    · rw [if_pos hic] at hh
      simp only [decide_eq_true_eq] at hh
      exact ⟨fun _ => hh, fun hne => absurd hic hne⟩
    · rw [if_neg hic] at hh
      simp only [decide_eq_true_eq] at hh
      exact ⟨fun he => absurd he hic, fun _ => hh⟩
  · intro h i hi
    by_cases hic : i = letterToNumber row
    · rw [if_pos hic]
      simp only [decide_eq_true_eq]
      exact (h i hi).1 hic
    · rw [if_neg hic]
      simp only [decide_eq_true_eq]
      exact (h i hi).2 hic

/-- The cells scanned by the region check are exactly the cells of the
target's 3x3 box, described by agreement of the indices after division
by 3. -/
lemma checkRegionPlacement_true_iff (s : String) (row column value : Char) :
    checkRegionPlacement s row column value = true ↔
      ∀ r' c', r' / 3 = letterToNumber row / 3 → c' / 3 = columnToIndex column / 3 →
        ((r' = letterToNumber row ∧ c' = columnToIndex column) →
          cellAt (stringToGrid s) r' c' = '.' ∨
          cellAt (stringToGrid s) r' c' = value) ∧
        (¬(r' = letterToNumber row ∧ c' = columnToIndex column) →
          cellAt (stringToGrid s) r' c' ≠ value) := by
  unfold checkRegionPlacement
  simp only [List.all_eq_true, List.mem_range]
  constructor
  · intro h r' c' hr' hc'
    have hi : r' = letterToNumber row / 3 * 3 + (r' - letterToNumber row / 3 * 3) := by omega
    have hj : c' = columnToIndex column / 3 * 3 + (c' - columnToIndex column / 3 * 3) := by omega
    have hib : r' - letterToNumber row / 3 * 3 < 3 := by omega
    have hjb : c' - columnToIndex column / 3 * 3 < 3 := by omega
    have hh := h _ hib _ hjb
    rw [← hi, ← hj] at hh
    by_cases hrc : r' = letterToNumber row ∧ c' = columnToIndex column
    · rw [if_pos hrc] at hh
      simp only [decide_eq_true_eq] at hh
      exact ⟨fun _ => hh, fun hne => absurd hrc hne⟩
    · rw [if_neg hrc] at hh
      simp only [decide_eq_true_eq] at hh
      exact ⟨fun he => absurd he hrc, fun _ => hh⟩
  · intro h i hi j hj
    have hr' : (letterToNumber row / 3 * 3 + i) / 3 = letterToNumber row / 3 := by omega
    have hc' : (columnToIndex column / 3 * 3 + j) / 3 = columnToIndex column / 3 := by omega
    have hh := h _ _ hr' hc'
    by_cases hrc : letterToNumber row / 3 * 3 + i = letterToNumber row ∧
        columnToIndex column / 3 * 3 + j = columnToIndex column
    · rw [if_pos hrc]
      simp only [decide_eq_true_eq]
      exact hh.1 hrc
    · rw [if_neg hrc]
      simp only [decide_eq_true_eq]
      exact hh.2 hrc

/-- The row letters and column digits produced inside `solve` parse back to
the indices they encode. -/
lemma letterToNumber_rowLetter : ∀ r < 9, letterToNumber (rowLetter r) = r := by decide

lemma columnToIndex_columnDigit : ∀ c < 9, columnToIndex (columnDigit c) = c := by decide

lemma draft_letterToNumber_rowLetter : ∀ r < 9, Draft.letterToNumber (rowLetter r) = r := by
  decide

/-! ## Lemmas about the backtracking search -/

lemma sudokuDigits_ne_dot : ∀ d ∈ sudokuDigits, d ≠ '.' := by decide

lemma getD_setCell_of_ne {g : List Char} {row col i : Nat} (v : Char)
    (h : 9 * row + col ≠ i) :
    (setCell g row col v).getD i '?' = g.getD i '?' := by
  unfold setCell
  simp [List.getD, List.getElem?_set_ne h]

lemma tryDigits_eq_none_iff (solver : List Char → Option (List Char)) (g : List Char)
    (row col : Nat) (ds : List Char) :
    tryDigits solver g row col ds = none ↔
      ∀ d ∈ ds, isValidPlacement g row col d = true →
        solver (setCell g row col d) = none := by
  induction ds with
  | nil => simp [tryDigits]
  | cons d ds ih =>
    by_cases hv : isValidPlacement g row col d = true
    · cases hsol : solver (setCell g row col d) with
      | some out => simp [tryDigits, hv, hsol, List.forall_mem_cons]
      | none => simp [tryDigits, hv, hsol, List.forall_mem_cons, ih]
    · simp only [Bool.not_eq_true] at hv
      simp [tryDigits, hv, List.forall_mem_cons, ih]

lemma tryDigits_eq_some {solver : List Char → Option (List Char)} {g : List Char}
    {row col : Nat} {ds : List Char} {out : List Char}
    (h : tryDigits solver g row col ds = some out) :
    ∃ d ∈ ds, isValidPlacement g row col d = true ∧
      solver (setCell g row col d) = some out := by
  induction ds with
  | nil => simp [tryDigits] at h
  | cons d ds ih =>
    by_cases hv : isValidPlacement g row col d = true
    · rw [tryDigits, if_pos hv] at h
      cases hsol : solver (setCell g row col d) with
      | some out' =>
        rw [hsol] at h
        cases h
        exact ⟨d, List.mem_cons_self d ds, hv, hsol⟩
      | none =>
        rw [hsol] at h
        obtain ⟨d', hd', hv', hs'⟩ := ih h
        exact ⟨d', List.mem_cons_of_mem d hd', hv', hs'⟩
    · rw [tryDigits, if_neg hv] at h
      obtain ⟨d', hd', hv', hs'⟩ := ih h
      exact ⟨d', List.mem_cons_of_mem d hd', hv', hs'⟩

lemma findEmpty_eq_some {g : List Char} {r c : Nat} (h : findEmpty g = some (r, c)) :
    r < 9 ∧ c < 9 ∧ cellAt g r c = '.' := by
  unfold findEmpty at h
  obtain ⟨r', hr', hinner⟩ := List.exists_of_findSome?_eq_some h
  obtain ⟨c', hc', hcell⟩ := List.exists_of_findSome?_eq_some hinner
  rw [List.mem_range] at hr' hc'
  by_cases hdot : cellAt g r' c' = '.'
  · rw [if_pos hdot] at hcell
    cases hcell
    exact ⟨hr', hc', hdot⟩
  · rw [if_neg hdot] at hcell
    cases hcell

lemma findEmpty_eq_none_iff (g : List Char) :
    findEmpty g = none ↔ ∀ r < 9, ∀ c < 9, cellAt g r c ≠ '.' := by
  unfold findEmpty
  rw [List.findSome?_eq_none_iff]
  constructor
  · intro h r hr c hc hdot
    have := (List.findSome?_eq_none_iff).1 (h r (List.mem_range.2 hr)) c (List.mem_range.2 hc)
    rw [if_pos hdot] at this
    cases this
  · intro h r hr
    rw [List.findSome?_eq_none_iff]
    intro c hc
    rw [List.mem_range] at hr hc
    rw [if_neg (h r hr c hc)]

lemma isValidPlacement_true_iff (g : List Char) (row col : Nat) (num : Char) :
    isValidPlacement g row col num = true ↔
      (∀ x < 9, cellAt g row x ≠ num) ∧ (∀ x < 9, cellAt g x col ≠ num) ∧
      (∀ r' c', r' / 3 = row / 3 → c' / 3 = col / 3 → cellAt g r' c' ≠ num) := by
  unfold isValidPlacement
  simp only [Bool.and_eq_true, List.all_eq_true, List.mem_range, decide_eq_true_eq]
  constructor
  · rintro ⟨⟨h1, h2⟩, h3⟩
    refine ⟨h1, h2, ?_⟩
    intro r' c' hr' hc'
    have hh := h3 (r' - row / 3 * 3) (by omega) (c' - col / 3 * 3) (by omega)
    have e1 : row / 3 * 3 + (r' - row / 3 * 3) = r' := by omega
    have e2 : col / 3 * 3 + (c' - col / 3 * 3) = c' := by omega
    rw [e1, e2] at hh
    exact hh
  · rintro ⟨h1, h2, h3⟩
    refine ⟨⟨h1, h2⟩, ?_⟩
    intro i hi j hj
    exact h3 _ _ (by omega) (by omega)

/-- Structural soundness of the search: a returned grid has the input's
length, agrees with the input wherever the input was filled, has no empty
cell, and differs from the input only by digit characters. -/
lemma solveGridFuel_sound : ∀ (fuel : Nat) (g out : List Char),
    solveGridFuel fuel g = some out →
    out.length = g.length ∧
    (∀ i, g.getD i '?' ≠ '.' → out.getD i '?' = g.getD i '?') ∧
    (∀ r < 9, ∀ c < 9, cellAt out r c ≠ '.') ∧
    (∀ i, out.getD i '?' = g.getD i '?' ∨ out.getD i '?' ∈ sudokuDigits) := by
  intro fuel
  induction fuel with
  | zero =>
    intro g out h
    simp [solveGridFuel] at h
  | succ fuel ih =>
    intro g out h
    rw [solveGridFuel] at h
    cases hfe : findEmpty g with
    | none =>
      rw [hfe] at h
      cases h
      exact ⟨rfl, fun i _ => rfl, (findEmpty_eq_none_iff g).1 hfe, fun i => Or.inl rfl⟩
    | some rc =>
      obtain ⟨row, col⟩ := rc
      rw [hfe] at h
      obtain ⟨d, hd, hv, hs⟩ := tryDigits_eq_some h
      obtain ⟨hr9, hc9, hdot⟩ := findEmpty_eq_some hfe
      obtain ⟨ihlen, ihext, ihfill, ihdig⟩ := ih _ _ hs
      have hdotD : g.getD (9 * row + col) '?' = '.' := hdot
      refine ⟨by rw [ihlen, length_setCell], ?_, ihfill, ?_⟩
      · intro i hne
        have hii : 9 * row + col ≠ i := fun he => hne (he ▸ hdotD)
        have hset : (setCell g row col d).getD i '?' = g.getD i '?' :=
          getD_setCell_of_ne d hii
        rw [← hset]
        exact hset ▸ ihext i (hset ▸ hne)
      · intro i
        rcases ihdig i with hold | hdig
        · by_cases hii : 9 * row + col = i
          · subst hii
            by_cases hin : 9 * row + col < g.length
            · rw [hold]
              right
              have : (setCell g row col d).getD (9 * row + col) '?' = d :=
                cellAt_setCell_same d hin
              rw [this]
              exact hd
            · rw [hold]
              left
              unfold setCell
              rw [List.set_eq_of_length_le (by omega)]
          · rw [hold, getD_setCell_of_ne d hii]
            exact Or.inl rfl
        · exact Or.inr hdig

/-- Placing a digit that passes the search's legality test at an empty cell
preserves grid legality. -/
lemma legal_setCell {g : List Char} {row col : Nat} {d : Char} (hlen : g.length = 81)
    (hr : row < 9) (hc : col < 9) (hleg : legalGrid g)
    (hv : isValidPlacement g row col d = true) :
    legalGrid (setCell g row col d) := by
  obtain ⟨hrow, hcol, hreg⟩ := hleg
  obtain ⟨v1, v2, v3⟩ := (isValidPlacement_true_iff g row col d).1 hv
  have hin : 9 * row + col < g.length := by omega
  have hcell : ∀ r' c', c' < 9 → cellAt (setCell g row col d) r' c' =
      if r' = row ∧ c' = col then d else cellAt g r' c' := by
    intro r' c' hc'
    by_cases hrc : r' = row ∧ c' = col
    · obtain ⟨h1, h2⟩ := hrc
      subst h1
      subst h2
      rw [if_pos ⟨rfl, rfl⟩, cellAt_setCell_same d hin]
    · rw [if_neg hrc, cellAt_setCell_ne d
        (fun he => hrc ⟨((index_inj hc hc').1 he).1.symm, ((index_inj hc hc').1 he).2.symm⟩)]
  refine ⟨?_, ?_, ?_⟩
  · intro r hr9 c₁ hc₁ c₂ hc₂ hne hfill
    rw [hcell r c₁ hc₁] at hfill ⊢
    rw [hcell r c₂ hc₂]
    by_cases ha : r = row ∧ c₁ = col
    · rw [if_pos ha] at hfill ⊢
      by_cases hb : r = row ∧ c₂ = col
      · exact absurd (ha.2.trans hb.2.symm) hne
      · rw [if_neg hb]
        intro he
        exact v1 c₂ hc₂ (ha.1 ▸ he.symm)
    · rw [if_neg ha] at hfill ⊢
      by_cases hb : r = row ∧ c₂ = col
      · rw [if_pos hb]
        intro he
        exact v1 c₁ hc₁ (hb.1 ▸ he)
      · rw [if_neg hb]
        exact hrow r hr9 c₁ hc₁ c₂ hc₂ hne hfill
  · intro c hc9 r₁ hr₁ r₂ hr₂ hne hfill
    rw [hcell r₁ c hc9] at hfill ⊢
    rw [hcell r₂ c hc9]
    by_cases ha : r₁ = row ∧ c = col
    · rw [if_pos ha] at hfill ⊢
      by_cases hb : r₂ = row ∧ c = col
      · exact absurd (ha.1.trans hb.1.symm) hne
      · rw [if_neg hb]
        intro he
        exact v2 r₂ hr₂ (ha.2 ▸ he.symm)
    · rw [if_neg ha] at hfill ⊢
      by_cases hb : r₂ = row ∧ c = col
      · rw [if_pos hb]
        intro he
        exact v2 r₁ hr₁ (hb.2 ▸ he)
      · rw [if_neg hb]
        exact hcol c hc9 r₁ hr₁ r₂ hr₂ hne hfill
  · intro r₁ hr₁ c₁ hc₁ r₂ hr₂ c₂ hc₂ h3r h3c hne hfill
    rw [hcell r₁ c₁ hc₁] at hfill ⊢
    rw [hcell r₂ c₂ hc₂]
    by_cases ha : r₁ = row ∧ c₁ = col
    · rw [if_pos ha] at hfill ⊢
      by_cases hb : r₂ = row ∧ c₂ = col
      · exact absurd ⟨ha.1.trans hb.1.symm, ha.2.trans hb.2.symm⟩ hne
      · rw [if_neg hb]
        intro he
        exact v3 r₂ c₂ (by rw [← h3r, ha.1]) (by rw [← h3c, ha.2]) he.symm
    · rw [if_neg ha] at hfill ⊢
      by_cases hb : r₂ = row ∧ c₂ = col
      · rw [if_pos hb]
        intro he
        exact v3 r₁ c₁ (by rw [h3r, hb.1]) (by rw [h3c, hb.2]) he
      · rw [if_neg hb]
        exact hreg r₁ hr₁ c₁ hc₁ r₂ hr₂ c₂ hc₂ h3r h3c hne hfill

/-- Legality soundness of the search: starting from a legal grid, any
returned grid is legal. -/
lemma solveGridFuel_legal : ∀ (fuel : Nat) (g out : List Char), g.length = 81 →
    legalGrid g → solveGridFuel fuel g = some out → legalGrid out := by
  intro fuel
  induction fuel with
  | zero =>
    intro g out _ _ h
    simp [solveGridFuel] at h
  | succ fuel ih =>
    intro g out hlen hleg h
    rw [solveGridFuel] at h
    cases hfe : findEmpty g with
    | none =>
      rw [hfe] at h
      cases h
      exact hleg
    | some rc =>
      obtain ⟨row, col⟩ := rc
      rw [hfe] at h
      obtain ⟨d, hd, hv, hs⟩ := tryDigits_eq_some h
      obtain ⟨hr9, hc9, hdot⟩ := findEmpty_eq_some hfe
      exact ih _ _ (by rw [length_setCell, hlen])
        (legal_setCell hlen hr9 hc9 hleg hv) hs

/-- A grid with a legal completion is itself legal on its filled cells. -/
lemma solvable_legalGrid {g : List Char} (h : solvable g) : legalGrid g := by
  obtain ⟨g', _, _, ⟨hr', hc', hg'⟩, hext⟩ := h
  refine ⟨?_, ?_, ?_⟩
  · intro r hr c₁ hc₁ c₂ hc₂ hne hfill
    by_cases hdot : cellAt g r c₂ = '.'
    · rw [hdot]
      exact hfill
    · have e1 := hext r hr c₁ hc₁ hfill
      have e2 := hext r hr c₂ hc₂ hdot
      have hh := hr' r hr c₁ hc₁ c₂ hc₂ hne (by rw [e1]; exact hfill)
      rw [e1, e2] at hh
      exact hh
  · intro c hc r₁ hr₁ r₂ hr₂ hne hfill
    by_cases hdot : cellAt g r₂ c = '.'
    · rw [hdot]
      exact hfill
    · have e1 := hext r₁ hr₁ c hc hfill
      have e2 := hext r₂ hr₂ c hc hdot
      have hh := hc' c hc r₁ hr₁ r₂ hr₂ hne (by rw [e1]; exact hfill)
      rw [e1, e2] at hh
      exact hh
  · intro r₁ hr₁ c₁ hc₁ r₂ hr₂ c₂ hc₂ h3r h3c hne hfill
    by_cases hdot : cellAt g r₂ c₂ = '.'
    · rw [hdot]
      exact hfill
    · have e1 := hext r₁ hr₁ c₁ hc₁ hfill
      have e2 := hext r₂ hr₂ c₂ hc₂ hdot
      have hh := hg' r₁ hr₁ c₁ hc₁ r₂ hr₂ c₂ hc₂ h3r h3c hne (by rw [e1]; exact hfill)
      rw [e1, e2] at hh
      exact hh

/-- Completeness of the search: a solvable grid with enough fuel always
produces a result. -/
lemma solveGridFuel_complete : ∀ (fuel : Nat) (g : List Char), g.length = 81 →
    emptyCount g < fuel → solvable g → ∃ out, solveGridFuel fuel g = some out := by
  intro fuel
  induction fuel with
  | zero =>
    intro g _ hfuel _
    exact absurd hfuel (Nat.not_lt_zero _)
  | succ fuel ih =>
    intro g hlen hfuel hsolv
    cases hfe : findEmpty g with
    | none => exact ⟨g, by rw [solveGridFuel, hfe]⟩
    | some rc =>
      obtain ⟨row, col⟩ := rc
      obtain ⟨hr9, hc9, hdot⟩ := findEmpty_eq_some hfe
      obtain ⟨g', hlen', hcomp, hleg', hext⟩ := hsolv
      obtain ⟨hrw, hcl, hrg⟩ := hleg'
      set d := cellAt g' row col with hd
      have hdig : isDigitCell d := hcomp row hr9 col hc9
      have hdmem : d ∈ sudokuDigits := (mem_sudokuDigits_iff d).2 hdig
      have hdne : d ≠ '.' := sudokuDigits_ne_dot d hdmem
      have hvalid : isValidPlacement g row col d = true := by
        rw [isValidPlacement_true_iff]
        refine ⟨?_, ?_, ?_⟩
        · intro x hx heq
          have hxc : x ≠ col := by
            intro he
            rw [he, hdot] at heq
            exact hdne heq.symm
          have hfill : cellAt g row x ≠ '.' := by
            rw [heq]
            exact hdne
          have he' : cellAt g' row x = cellAt g row x := hext row hr9 x hx hfill
          have hne2 := hrw row hr9 x hx col hc9 hxc (by rw [he', heq]; exact hdne)
          rw [he', heq, ← hd] at hne2
          exact hne2 rfl
        · intro x hx heq
          have hxr : x ≠ row := by
            intro he
            rw [he, hdot] at heq
            exact hdne heq.symm
          have hfill : cellAt g x col ≠ '.' := by
            rw [heq]
            exact hdne
          have he' : cellAt g' x col = cellAt g x col := hext x hx col hc9 hfill
          have hne2 := hcl col hc9 x hx row hr9 hxr (by rw [he', heq]; exact hdne)
          rw [he', heq, ← hd] at hne2
          exact hne2 rfl
        · intro r' c' h3r h3c heq
          have hr'9 : r' < 9 := by omega
          have hc'9 : c' < 9 := by omega
          have hne : ¬(r' = row ∧ c' = col) := by
            rintro ⟨e1, e2⟩
            rw [e1, e2, hdot] at heq
            exact hdne heq.symm
          have hfill : cellAt g r' c' ≠ '.' := by
            rw [heq]
            exact hdne
          have he' : cellAt g' r' c' = cellAt g r' c' := hext r' hr'9 c' hc'9 hfill
          have hne2 := hrg r' hr'9 c' hc'9 row hr9 col hc9 h3r h3c hne
            (by rw [he', heq]; exact hdne)
          rw [he', heq, ← hd] at hne2
          exact hne2 rfl
      have hsolv2 : solvable (setCell g row col d) := by
        refine ⟨g', hlen', hcomp, ⟨hrw, hcl, hrg⟩, ?_⟩
        intro r hr c hc hfill
        by_cases hrc : r = row ∧ c = col
        · obtain ⟨e1, e2⟩ := hrc
          subst e1
          subst e2
          rw [cellAt_setCell_same d (by omega)]
        · have hne9 : 9 * row + col ≠ 9 * r + c := by
            intro he
            have := (index_inj hc9 hc).1 he
            exact hrc ⟨this.1.symm, this.2.symm⟩
          rw [cellAt_setCell_ne d hne9] at hfill ⊢
          exact hext r hr c hc hfill
      have hcount : emptyCount (setCell g row col d) < emptyCount g :=
        emptyCount_setCell_lt (by omega) hdot hdne
      obtain ⟨out, hout⟩ := ih (setCell g row col d)
        (by rw [length_setCell, hlen]) (by omega) hsolv2
      have hstep : solveGridFuel (fuel + 1) g =
          tryDigits (solveGridFuel fuel) g row col sudokuDigits := by
        rw [solveGridFuel, hfe]
      cases htry : tryDigits (solveGridFuel fuel) g row col sudokuDigits with
      | some out2 => exact ⟨out2, by rw [hstep, htry]⟩
      | none =>
        have hnone := (tryDigits_eq_none_iff _ _ _ _ _).1 htry d hdmem hvalid
        rw [hout] at hnone
        cases hnone

/-! ## The phase-1 pre-validation is exactly grid legality -/

lemma stringToGrid_gridToString (g : List Char) : stringToGrid (gridToString g) = g := rfl

lemma gridToString_stringToGrid (s : String) : gridToString (stringToGrid s) = s := rfl

/-- On a grid whose target cell has been blanked, the canonical row check
reduces to "the value appears in no other cell of the row". -/
lemma rowCheckBlank_iff {g : List Char} (hlen : g.length = 81) {r c : Nat} (hr : r < 9)
    (hc : c < 9) (v : Char) :
    checkRowPlacement (gridToString (setCell g r c '.')) (rowLetter r) (columnDigit c) v
        = true ↔
      ∀ i < 9, i ≠ c → cellAt g r i ≠ v := by
  rw [checkRowPlacement_true_iff]
  simp only [letterToNumber_rowLetter r hr, columnToIndex_columnDigit c hc,
    stringToGrid_gridToString]
  constructor
  · intro H i hi hne
    have hh := (H i hi).2 hne
    rwa [cellAt_setCell_ne '.' (by omega)] at hh
  · intro H i hi
    constructor
    · intro he
      subst he
      exact Or.inl (cellAt_setCell_same '.' (by omega))
    · intro hne
      rw [cellAt_setCell_ne '.' (by omega)]
      exact H i hi hne

/-- Column analogue of `rowCheckBlank_iff`. -/
lemma colCheckBlank_iff {g : List Char} (hlen : g.length = 81) {r c : Nat} (hr : r < 9)
    (hc : c < 9) (v : Char) :
    checkColPlacement (gridToString (setCell g r c '.')) (rowLetter r) (columnDigit c) v
        = true ↔
      ∀ i < 9, i ≠ r → cellAt g i c ≠ v := by
  rw [checkColPlacement_true_iff]
  simp only [letterToNumber_rowLetter r hr, columnToIndex_columnDigit c hc,
    stringToGrid_gridToString]
  constructor
  · intro H i hi hne
    have hh := (H i hi).2 hne
    rwa [cellAt_setCell_ne '.' (by omega)] at hh
  · intro H i hi
    constructor
    · intro he
      subst he
      exact Or.inl (cellAt_setCell_same '.' (by omega))
    · intro hne
      rw [cellAt_setCell_ne '.' (by omega)]
      exact H i hi hne

/-- Region analogue of `rowCheckBlank_iff`. -/
lemma regionCheckBlank_iff {g : List Char} (hlen : g.length = 81) {r c : Nat} (hr : r < 9)
    (hc : c < 9) (v : Char) :
    checkRegionPlacement (gridToString (setCell g r c '.')) (rowLetter r) (columnDigit c) v
        = true ↔
      ∀ r' c', r' / 3 = r / 3 → c' / 3 = c / 3 → ¬(r' = r ∧ c' = c) →
        cellAt g r' c' ≠ v := by
  rw [checkRegionPlacement_true_iff]
  simp only [letterToNumber_rowLetter r hr, columnToIndex_columnDigit c hc,
    stringToGrid_gridToString]
  constructor
  · intro H r' c' h3r h3c hne
    have hh := (H r' c' h3r h3c).2 hne
    have hr'9 : r' < 9 := by omega
    have hc'9 : c' < 9 := by omega
    rwa [cellAt_setCell_ne '.'
      (fun he => hne ⟨((index_inj hc hc'9).1 he).1.symm, ((index_inj hc hc'9).1 he).2.symm⟩)]
      at hh
  · intro H r' c' h3r h3c
    constructor
    · rintro ⟨e1, e2⟩
      subst e1
      subst e2
      exact Or.inl (cellAt_setCell_same '.' (by omega))
    · intro hne
      have hr'9 : r' < 9 := by omega
      have hc'9 : c' < 9 := by omega
      rw [cellAt_setCell_ne '.'
        (fun he => hne ⟨((index_inj hc hc'9).1 he).1.symm, ((index_inj hc hc'9).1 he).2.symm⟩)]
      exact H r' c' h3r h3c hne

/-- The canonical phase-1 pre-validation computes the replay condition. -/
lemma preValidate_true_iff_replay {g : List Char} (hlen : g.length = 81) :
    preValidate g = true ↔ replayOK g := by
  unfold preValidate replayOK
  simp only [List.all_eq_true, List.mem_range]
  constructor
  · intro H r hr c hc hfill
    have hh := H r hr c hc
    rw [if_neg hfill] at hh
    simp only [Bool.and_eq_true] at hh
    obtain ⟨⟨h1, h2⟩, h3⟩ := hh
    exact ⟨(rowCheckBlank_iff hlen hr hc _).1 h1, (colCheckBlank_iff hlen hr hc _).1 h2,
      (regionCheckBlank_iff hlen hr hc _).1 h3⟩
  · intro H r hr c hc
    by_cases hfill : cellAt g r c = '.'
    · rw [if_pos hfill]
    · rw [if_neg hfill]
      obtain ⟨h1, h2, h3⟩ := H r hr c hc hfill
      simp only [Bool.and_eq_true]
      exact ⟨⟨(rowCheckBlank_iff hlen hr hc _).2 h1,
        (colCheckBlank_iff hlen hr hc _).2 h2⟩,
        (regionCheckBlank_iff hlen hr hc _).2 h3⟩

/-- The replay condition is exactly grid legality. -/
lemma replayOK_iff_legal (g : List Char) : replayOK g ↔ legalGrid g := by
  unfold replayOK
  constructor
  · intro H
    refine ⟨?_, ?_, ?_⟩
    · intro r hr c₁ hc₁ c₂ hc₂ hne hfill
      intro he
      exact (H r hr c₁ hc₁ hfill).1 c₂ hc₂ (Ne.symm hne) he.symm
    · intro c hc r₁ hr₁ r₂ hr₂ hne hfill
      intro he
      exact (H r₁ hr₁ c hc hfill).2.1 r₂ hr₂ (Ne.symm hne) he.symm
    · intro r₁ hr₁ c₁ hc₁ r₂ hr₂ c₂ hc₂ h3r h3c hne hfill
      intro he
      exact (H r₁ hr₁ c₁ hc₁ hfill).2.2 r₂ c₂ h3r.symm h3c.symm
        (fun hp => hne ⟨hp.1.symm, hp.2.symm⟩) he.symm
  · rintro ⟨hrw, hcl, hrg⟩ r hr c hc hfill
    refine ⟨?_, ?_, ?_⟩
    · intro i hi hne heq
      exact hrw r hr c hc i hi (Ne.symm hne) hfill heq.symm
    · intro i hi hne heq
      exact hcl c hc r hr i hi (Ne.symm hne) hfill heq.symm
    · intro r' c' h3r h3c hne heq
      have hr'9 : r' < 9 := by omega
      have hc'9 : c' < 9 := by omega
      exact hrg r hr c hc r' hr'9 c' hc'9 h3r.symm h3c.symm
        (fun hp => hne ⟨hp.1.symm, hp.2.symm⟩) hfill heq.symm

/-- The canonical phase-1 pre-validation accepts exactly the legal grids. -/
lemma preValidate_true_iff {g : List Char} (hlen : g.length = 81) :
    preValidate g = true ↔ legalGrid g :=
  (preValidate_true_iff_replay hlen).trans (replayOK_iff_legal g)

/-! ## The draft pre-validation agrees with the canonical one -/

lemma draft_rowCheckBlank_iff {g : List Char} (hlen : g.length = 81) {r c : Nat}
    (hr : r < 9) (hc : c < 9) {v : Char} (hv : v ≠ '.') :
    Draft.checkRowPlacement (gridToString (setCell g r c '.'))
        (rowLetter r) (columnDigit c) v = true ↔
      ∀ i < 9, i ≠ c → cellAt g r i ≠ v := by
  unfold Draft.checkRowPlacement
  simp only [List.all_eq_true, List.mem_range, decide_eq_true_eq,
    draft_letterToNumber_rowLetter r hr, stringToGrid_gridToString]
  constructor
  · intro H i hi hne
    have hh := H i hi
    rwa [cellAt_setCell_ne '.' (by omega)] at hh
  · intro H i hi
    by_cases hic : i = c
    · subst hic
      rw [cellAt_setCell_same '.' (by omega)]
      exact fun he => hv he.symm
    · rw [cellAt_setCell_ne '.' (by omega)]
      exact H i hi hic

lemma draft_colCheckBlank_iff {g : List Char} (hlen : g.length = 81) {r c : Nat}
    (hr : r < 9) (hc : c < 9) {v : Char} (hv : v ≠ '.') :
    Draft.checkColPlacement (gridToString (setCell g r c '.'))
        (rowLetter r) (columnDigit c) v = true ↔
      ∀ i < 9, i ≠ r → cellAt g i c ≠ v := by
  unfold Draft.checkColPlacement
  simp only [List.all_eq_true, List.mem_range, decide_eq_true_eq,
    columnToIndex_columnDigit c hc, stringToGrid_gridToString]
  constructor
  · intro H i hi hne
    have hh := H i hi
    rwa [cellAt_setCell_ne '.' (by omega)] at hh
  · intro H i hi
    by_cases hic : i = r
    · subst hic
      rw [cellAt_setCell_same '.' (by omega)]
      exact fun he => hv he.symm
    · rw [cellAt_setCell_ne '.' (by omega)]
      exact H i hi hic

lemma draft_regionCheckBlank_iff {g : List Char} (hlen : g.length = 81) {r c : Nat}
    (hr : r < 9) (hc : c < 9) {v : Char} (hv : v ≠ '.') :
    Draft.checkRegionPlacement (gridToString (setCell g r c '.'))
        (rowLetter r) (columnDigit c) v = true ↔
      ∀ r' c', r' / 3 = r / 3 → c' / 3 = c / 3 → ¬(r' = r ∧ c' = c) →
        cellAt g r' c' ≠ v := by
  unfold Draft.checkRegionPlacement
  simp only [List.all_eq_true, List.mem_range, decide_eq_true_eq,
    draft_letterToNumber_rowLetter r hr, columnToIndex_columnDigit c hc,
    stringToGrid_gridToString]
  constructor
  · intro H r' c' h3r h3c hne
    have hr'9 : r' < 9 := by omega
    have hc'9 : c' < 9 := by omega
    have hh := H (r' - r / 3 * 3) (by omega) (c' - c / 3 * 3) (by omega)
    have e1 : r / 3 * 3 + (r' - r / 3 * 3) = r' := by omega
    have e2 : c / 3 * 3 + (c' - c / 3 * 3) = c' := by omega
    rw [e1, e2] at hh
    rwa [cellAt_setCell_ne '.'
      (fun he => hne ⟨((index_inj hc hc'9).1 he).1.symm, ((index_inj hc hc'9).1 he).2.symm⟩)]
      at hh
  · intro H i hi j hj
    by_cases hij : r / 3 * 3 + i = r ∧ c / 3 * 3 + j = c
    · rw [hij.1, hij.2, cellAt_setCell_same '.' (by omega)]
      exact fun he => hv he.symm
    · have hr'9 : r / 3 * 3 + i < 9 := by omega
      have hc'9 : c / 3 * 3 + j < 9 := by omega
      rw [cellAt_setCell_ne '.'
        (fun he => hij ⟨((index_inj hc hc'9).1 he).1.symm, ((index_inj hc hc'9).1 he).2.symm⟩)]
      exact H _ _ (by omega) (by omega) hij

/-- The draft phase-1 pre-validation computes the same replay condition. -/
lemma draft_preValidate_true_iff_replay {g : List Char} (hlen : g.length = 81) :
    Draft.preValidate g = true ↔ replayOK g := by
  unfold Draft.preValidate replayOK
  simp only [List.all_eq_true, List.mem_range]
  constructor
  · intro H r hr c hc hfill
    have hh := H r hr c hc
    rw [if_neg hfill] at hh
    simp only [Bool.and_eq_true] at hh
    obtain ⟨⟨h1, h2⟩, h3⟩ := hh
    exact ⟨(draft_rowCheckBlank_iff hlen hr hc hfill).1 h1,
      (draft_colCheckBlank_iff hlen hr hc hfill).1 h2,
      (draft_regionCheckBlank_iff hlen hr hc hfill).1 h3⟩
  · intro H r hr c hc
    by_cases hfill : cellAt g r c = '.'
    · rw [if_pos hfill]
    · rw [if_neg hfill]
      obtain ⟨h1, h2, h3⟩ := H r hr c hc hfill
      simp only [Bool.and_eq_true]
      exact ⟨⟨(draft_rowCheckBlank_iff hlen hr hc hfill).2 h1,
        (draft_colCheckBlank_iff hlen hr hc hfill).2 h2⟩,
        (draft_regionCheckBlank_iff hlen hr hc hfill).2 h3⟩

/-- On length-81 grids the two pre-validations are the same function. -/
lemma draft_preValidate_eq {g : List Char} (hlen : g.length = 81) :
    Draft.preValidate g = preValidate g := by
  rw [Bool.eq_iff_iff, draft_preValidate_true_iff_replay hlen,
    preValidate_true_iff_replay hlen]

/-! ## Top-level behaviour of solve -/

lemma cellAt_mem {g : List Char} {r c : Nat} (hlen : g.length = 81) (hr : r < 9)
    (hc : c < 9) : cellAt g r c ∈ g := by
  unfold cellAt
  have hin : 9 * r + c < g.length := by omega
  rw [List.getD_eq_getElem g '?' hin]
  exact List.getElem_mem hin

lemma mem_iff_cellAt {g : List Char} (hlen : g.length = 81) (ch : Char) :
    ch ∈ g ↔ ∃ r < 9, ∃ c < 9, cellAt g r c = ch := by
  constructor
  · intro h
    obtain ⟨i, hi, he⟩ := List.mem_iff_getElem.1 h
    refine ⟨i / 9, by omega, i % 9, by omega, ?_⟩
    rw [← getD_eq_cellAt, List.getD_eq_getElem g '?' hi]
    exact he
  · rintro ⟨r, hr, c, hc, he⟩
    rw [← he]
    exact cellAt_mem hlen hr hc

/-- Inversion of a successful `solve`: phase 1 accepted and the search
returned the serialised grid. -/
lemma solve_some_sound {s sol : String} (h : solve s = some sol) :
    preValidate (stringToGrid s) = true ∧
    ∃ out, solveGridFuel 82 (stringToGrid s) = some out ∧ sol = gridToString out := by
  simp only [solve] at h
  by_cases hpv : preValidate (stringToGrid s) = true
  · rw [if_pos hpv] at h
    cases hout : solveGridFuel 82 (stringToGrid s) with
    | none =>
      rw [hout] at h
      cases h
    | some out =>
      rw [hout] at h
      cases h
      exact ⟨hpv, out, rfl, rfl⟩
  · rw [if_neg hpv] at h
    cases h

/-- Everything a successful `solve` guarantees on a valid puzzle string. -/
lemma solve_sound {s sol : String} (hlen : s.length = 81)
    (halph : alphabetOK (stringToGrid s)) (h : solve s = some sol) :
    sol.length = 81 ∧ '.' ∉ sol.data ∧ solvable (stringToGrid s) ∧
      legalGrid (stringToGrid s) := by
  obtain ⟨hpv, out, hout, rfl⟩ := solve_some_sound h
  have hlen' : (stringToGrid s).length = 81 := hlen
  have hleg : legalGrid (stringToGrid s) := (preValidate_true_iff hlen').1 hpv
  obtain ⟨slen, sext, sfill, sdig⟩ := solveGridFuel_sound 82 _ out hout
  have hlegout : legalGrid out := solveGridFuel_legal 82 _ out hlen' hleg hout
  have houtlen : out.length = 81 := by rw [slen, hlen']
  have hnodot : '.' ∉ out := by
    intro hmem
    obtain ⟨r, hr, c, hc, he⟩ := (mem_iff_cellAt houtlen '.').1 hmem
    exact sfill r hr c hc he
  refine ⟨houtlen, hnodot, ⟨out, houtlen, ?_, hlegout, ?_⟩, hleg⟩
  · intro r hr c hc
    rcases sdig (9 * r + c) with hold | hdig
    · have hcell : cellAt out r c = cellAt (stringToGrid s) r c := hold
      rcases halph (cellAt (stringToGrid s) r c) (cellAt_mem hlen' hr hc) with hdot | hdigit
      · exact absurd (hcell.trans hdot) (sfill r hr c hc)
      · rw [hcell]
        exact hdigit
    · exact (mem_sudokuDigits_iff _).1 hdig
  · intro r hr c hc hfill
    exact sext (9 * r + c) hfill

/-- On a solvable valid puzzle string, `solve` produces a result. -/
lemma solve_complete {s : String} (hlen : s.length = 81)
    (hsolv : solvable (stringToGrid s)) : ∃ sol, solve s = some sol := by
  have hlen' : (stringToGrid s).length = 81 := hlen
  have hleg := solvable_legalGrid hsolv
  have hpv := (preValidate_true_iff hlen').2 hleg
  have hfuel : emptyCount (stringToGrid s) < 82 :=
    lt_of_le_of_lt (emptyCount_le_length _) (by rw [hlen']; omega)
  obtain ⟨out, hout⟩ := solveGridFuel_complete 82 _ hlen' hfuel hsolv
  refine ⟨gridToString out, ?_⟩
  simp only [solve]
  rw [if_pos hpv, hout]

/-- A valid 81-character puzzle string passes `validate`. -/
lemma validate_none_of (s : String) (hlen : s.length = 81)
    (halph : alphabetOK (stringToGrid s)) : validate (some s) = none := by
  simp only [validate]
  have hne : ¬ s.isEmpty = true := by
    simp only [String.isEmpty_iff]
    intro he
    rw [he] at hlen
    simp at hlen
  rw [if_neg hne]
  have hchars : ¬ (s.data.any fun ch => !isPuzzleChar ch) = true := by
    simp only [List.any_eq_true, not_exists]
    rintro ch ⟨hch, hbad⟩
    rcases halph ch hch with hdot | hdig
    · rw [hdot] at hbad
      simp [isPuzzleChar] at hbad
    · unfold isPuzzleChar at hbad
      simp only [Bool.not_eq_true', decide_eq_false_iff_not] at hbad
      exact hbad (Or.inl hdig)
  rw [if_neg hchars, if_neg (by rw [hlen]; omega)]

/-! ## Route-level bridging lemmas -/

lemma falsy_true_iff (x : Option String) : falsy x = true ↔ fieldMissing x := by
  unfold falsy fieldMissing
  cases x with
  | none => simp
  | some t => simp [String.isEmpty_iff]

lemma falsy_false_iff (x : Option String) : falsy x = false ↔ ¬ fieldMissing x := by
  rw [← falsy_true_iff]
  cases falsy x <;> simp

lemma coordinateOK_true_iff (co : String) : coordinateOK co = true ↔ coordFormatOK co := by
  unfold coordinateOK coordFormatOK isRowLetter isNonzeroDigit
  simp only [Bool.and_eq_true, decide_eq_true_eq]
  tauto

lemma valueOK_true_iff (v : String) : valueOK v = true ↔ valueFormatOK v := by
  unfold valueOK valueFormatOK isNonzeroDigit
  simp only [Bool.and_eq_true, decide_eq_true_eq]

/-- Evaluation of the handler when every input validation passes. -/
lemma apiCheck_eval (p co v : String) (hp : falsy (some p) = false)
    (hco : falsy (some co) = false) (hv : falsy (some v) = false)
    (hval : validate (some p) = none) (hcoord : coordinateOK co = true)
    (hvOK : valueOK v = true) :
    apiCheck (some p) (some co) (some v) = conflictResponse p co v := by
  simp only [apiCheck, hp, hco, hv, Bool.or_self, Bool.false_or, Option.getD_some,
    hval, hcoord, hvOK, Bool.not_true, Bool.false_eq_true, if_false]

/-! ## The claims -/

/-- C1 (counterexample): on the puzzle whose only given is a `5` at A1,
checking value `1` at A1 reports a conflict from all three placement checks,
although `1` occupies no OTHER cell of row A, of column 1, or of the
top-left region (the coordinate parses to row index 0, column index 0) —
so the target cell's own pre-existing content is not irrelevant, refuting
the claimed if-and-only-if. -/
theorem placement_checks_target_counterexample :
    checkRowPlacement fivePuzzle 'A' '1' '1' = false ∧
    checkColPlacement fivePuzzle 'A' '1' '1' = false ∧
    checkRegionPlacement fivePuzzle 'A' '1' '1' = false ∧
    (∀ i < 9, i ≠ 0 → cellAt (stringToGrid fivePuzzle) 0 i ≠ '1') ∧
    (∀ i < 9, i ≠ 0 → cellAt (stringToGrid fivePuzzle) i 0 ≠ '1') ∧
    (∀ r' < 3, ∀ c' < 3, ¬(r' = 0 ∧ c' = 0) →
      cellAt (stringToGrid fivePuzzle) r' c' ≠ '1') ∧
    letterToNumber 'A' = 0 ∧ columnToIndex '1' = 0 := by
  decide

/-- C1 (amended): for every puzzle string, coordinate (row index `r`, column
index `c`, passed as the row letter and column digit) and candidate value,
each placement check returns false (conflict) if and only if the candidate
already occupies some OTHER cell of the respective axis OR the target cell
holds a non-empty value different from the candidate ("cannot overwrite a
different number"). -/
theorem placement_checks_false_iff (s : String) (r c : Nat) (hr : r < 9) (hc : c < 9)
    (v : Char) :
    (checkRowPlacement s (rowLetter r) (columnDigit c) v = false ↔
      ((∃ i < 9, i ≠ c ∧ cellAt (stringToGrid s) r i = v) ∨
       (cellAt (stringToGrid s) r c ≠ '.' ∧ cellAt (stringToGrid s) r c ≠ v))) ∧
    (checkColPlacement s (rowLetter r) (columnDigit c) v = false ↔
      ((∃ i < 9, i ≠ r ∧ cellAt (stringToGrid s) i c = v) ∨
       (cellAt (stringToGrid s) r c ≠ '.' ∧ cellAt (stringToGrid s) r c ≠ v))) ∧
    (checkRegionPlacement s (rowLetter r) (columnDigit c) v = false ↔
      ((∃ r' c', r' / 3 = r / 3 ∧ c' / 3 = c / 3 ∧ ¬(r' = r ∧ c' = c) ∧
         cellAt (stringToGrid s) r' c' = v) ∨
       (cellAt (stringToGrid s) r c ≠ '.' ∧ cellAt (stringToGrid s) r c ≠ v))) := by
  have hrow := checkRowPlacement_true_iff s (rowLetter r) (columnDigit c) v
  have hcol := checkColPlacement_true_iff s (rowLetter r) (columnDigit c) v
  have hreg := checkRegionPlacement_true_iff s (rowLetter r) (columnDigit c) v
  simp only [letterToNumber_rowLetter r hr, columnToIndex_columnDigit c hc]
    at hrow hcol hreg
  refine ⟨?_, ?_, ?_⟩
  · rw [Bool.eq_false_iff, Ne, hrow]
    constructor
    · intro hn
      by_contra hcon
      push_neg at hcon
      apply hn
      intro i hi
      refine ⟨?_, fun hne heq => hcon.1 i hi hne heq⟩
      intro hie
      subst hie
      rcases eq_or_ne (cellAt (stringToGrid s) r i) '.' with hdot | hnd
      · exact Or.inl hdot
      · exact Or.inr (hcon.2 hnd)
    · rintro (⟨i, hi, hne, heq⟩ | ⟨h1, h2⟩) H
      · exact (H i hi).2 hne heq
      · rcases (H c hc).1 rfl with hdot | hval
        · exact h1 hdot
        · exact h2 hval
  · rw [Bool.eq_false_iff, Ne, hcol]
    constructor
    · intro hn
      by_contra hcon
      push_neg at hcon
      apply hn
      intro i hi
      refine ⟨?_, fun hne heq => hcon.1 i hi hne heq⟩
      intro hie
      subst hie
      rcases eq_or_ne (cellAt (stringToGrid s) i c) '.' with hdot | hnd
      · exact Or.inl hdot
      · exact Or.inr (hcon.2 hnd)
    · rintro (⟨i, hi, hne, heq⟩ | ⟨h1, h2⟩) H
      · exact (H i hi).2 hne heq
      · rcases (H r hr).1 rfl with hdot | hval
        · exact h1 hdot
        · exact h2 hval
  · rw [Bool.eq_false_iff, Ne, hreg]
    constructor
    · intro hn
      by_contra hcon
      push_neg at hcon
      apply hn
      intro r' c' h3r h3c
      refine ⟨?_, fun hne heq => hcon.1 r' c' h3r h3c (fun e1 e2 => hne ⟨e1, e2⟩) heq⟩
      rintro ⟨e1, e2⟩
      subst e1
      subst e2
      rcases eq_or_ne (cellAt (stringToGrid s) r' c') '.' with hdot | hnd
      · exact Or.inl hdot
      · exact Or.inr (hcon.2 hnd)
    · rintro (⟨r', c', h3r, h3c, hne, heq⟩ | ⟨h1, h2⟩) H
      · exact (H r' c' h3r h3c).2 hne heq
      · rcases (H r c rfl rfl).1 ⟨rfl, rfl⟩ with hdot | hval
        · exact h1 hdot
        · exact h2 hval

/-- Closed instance of the amended C1 claim on the example puzzle: placing
`5` at A2 conflicts because `5` already occupies another cell of row A. -/
theorem placement_checks_false_iff_witness :
    checkRowPlacement examplePuzzle (rowLetter 0) (columnDigit 1) '5' = false := by
  have h := (placement_checks_false_iff examplePuzzle 0 1 (by decide) (by decide) '5').1
  exact h.mpr (Or.inl ⟨2, by decide, by decide, by decide⟩)

/-- C6: a complete (no `'.'`) legal 81-character grid is returned unchanged
by `solve`. -/
theorem solve_roundtrip_solved (s : String) (hlen : s.length = 81)
    (hnodot : '.' ∉ s.data) (hleg : legalGrid (stringToGrid s)) :
    solve s = some s := by
  have hlen' : (stringToGrid s).length = 81 := hlen
  have hpv := (preValidate_true_iff hlen').2 hleg
  have hfe : findEmpty (stringToGrid s) = none := by
    rw [findEmpty_eq_none_iff]
    intro r hr c hc hdot
    exact hnodot (hdot ▸ cellAt_mem hlen' hr hc)
  simp only [solve]
  rw [if_pos hpv, show (82 : Nat) = 81 + 1 from rfl, solveGridFuel, hfe]
  show some (gridToString (stringToGrid s)) = some s
  rw [gridToString_stringToGrid]

/-- Closed instance of C6 on a concrete solved grid. -/
theorem solve_roundtrip_solved_witness : solve solvedExample = some solvedExample :=
  solve_roundtrip_solved solvedExample (by decide) (by decide) (by decide)

/-- C8: whenever `solve` succeeds, the output agrees with the input at every
position the input had filled — givens are never overwritten. -/
theorem solve_preserves_givens (s sol : String) (h : solve s = some sol) :
    ∀ i, s.data.getD i '?' ≠ '.' → sol.data.getD i '?' = s.data.getD i '?' := by
  obtain ⟨hpv, out, hout, rfl⟩ := solve_some_sound h
  intro i hi
  exact (solveGridFuel_sound 82 _ out hout).2.1 i hi

/-- Closed instance of C8: solving the one-hole grid preserves the first
given. -/
theorem solve_preserves_givens_witness :
    solve nearlySolvedExample = some solvedExample ∧
    solvedExample.data.getD 0 '?' = nearlySolvedExample.data.getD 0 '?' :=
  ⟨by decide,
   solve_preserves_givens nearlySolvedExample solvedExample (by decide) 0 (by decide)⟩

/-- C9: on every valid 81-character puzzle string the draft engine copy's
`solve` and the canonical `solve` are extensionally equal — the two copies'
placement checks differ only on occupied target cells, which phase 1 never
presents to them (it blanks the target before each replay), and the search
phase is shared. -/
theorem solve_draft_equiv (s : String) (hlen : s.length = 81)
    (_halph : alphabetOK (stringToGrid s)) :
    Draft.solve s = solve s := by
  simp only [Draft.solve, solve]
  have hd := draft_preValidate_eq (show (stringToGrid s).length = 81 from hlen)
  rw [hd]

/-- Closed instance of C9 on the example puzzle. -/
theorem solve_draft_equiv_witness : Draft.solve examplePuzzle = solve examplePuzzle :=
  solve_draft_equiv examplePuzzle (by decide) (by decide)

/-- C10: the three placement checks are pure and deterministic — threading
the caller-visible state (the puzzle string) through two successive calls,
both calls return the same result and the state is returned unchanged. -/
theorem placement_checks_pure (state : String) (row column value : Char) :
    ((checkRowPlacementST state row column value).2 = state ∧
     (checkRowPlacementST
        ((checkRowPlacementST state row column value).2) row column value).1 =
       (checkRowPlacementST state row column value).1) ∧
    ((checkColPlacementST state row column value).2 = state ∧
     (checkColPlacementST
        ((checkColPlacementST state row column value).2) row column value).1 =
       (checkColPlacementST state row column value).1) ∧
    ((checkRegionPlacementST state row column value).2 = state ∧
     (checkRegionPlacementST
        ((checkRegionPlacementST state row column value).2) row column value).1 =
       (checkRegionPlacementST state row column value).1) :=
  ⟨⟨rfl, rfl⟩, ⟨rfl, rfl⟩, ⟨rfl, rfl⟩⟩

/-- C2: for every valid 81-character puzzle string, `solve` returns a fully
solved 81-character string (no `'.'`) exactly when some assignment of digits
completes the grid under row/column/region uniqueness; when no such
assignment exists `solve` fails and `POST /api/solve` responds with the
body `{"error": "Puzzle cannot be solved"}`. -/
theorem solve_succeeds_iff_solvable (s : String) (hlen : s.length = 81)
    (halph : alphabetOK (stringToGrid s)) :
    ((∃ sol, solve s = some sol ∧ sol.length = 81 ∧ '.' ∉ sol.data) ↔
      solvable (stringToGrid s)) ∧
    (¬ solvable (stringToGrid s) →
      solve s = none ∧
      apiSolve (some s) = SolveResponse.error "Puzzle cannot be solved") := by
  constructor
  · constructor
    · rintro ⟨sol, hsol, _, _⟩
      exact (solve_sound hlen halph hsol).2.2.1
    · intro hsolv
      obtain ⟨sol, hsol⟩ := solve_complete hlen hsolv
      obtain ⟨l, d, _, _⟩ := solve_sound hlen halph hsol
      exact ⟨sol, hsol, l, d⟩
  · intro hns
    have hnone : solve s = none := by
      cases hsol : solve s with
      | none => rfl
      | some sol => exact absurd (solve_sound hlen halph hsol).2.2.1 hns
    refine ⟨hnone, ?_⟩
    simp only [apiSolve, validate_none_of s hlen halph, Option.getD_some, hnone]

/-- Closed instance of C2 on the self-contradictory puzzle (two `1`s in
row A): `solve` fails and the route reports the unsolvable error. -/
theorem solve_succeeds_iff_solvable_witness :
    solve contradictoryPuzzle = none ∧
    apiSolve (some contradictoryPuzzle) =
      SolveResponse.error "Puzzle cannot be solved" := by
  have h := solve_succeeds_iff_solvable contradictoryPuzzle (by decide) (by decide)
  exact h.2 (fun hsolv => absurd (solvable_legalGrid hsolv) (by decide))

/-- C4: `validate` reports exactly one outcome in fixed precedence — missing
input first, then any character outside the puzzle alphabet (regardless of
length), then wrong length, else success — and POSTing an empty body to
`/api/solve` yields exactly the missing-field error. -/
theorem validate_precedence :
    (∀ x : Option String, fieldMissing x → validate x = some "Required field missing") ∧
    (∀ s : String, s ≠ "" → (∃ ch ∈ s.data, ¬(ch = '.' ∨ isDigitCell ch)) →
      validate (some s) = some "Invalid characters in puzzle") ∧
    (∀ s : String, s ≠ "" → (∀ ch ∈ s.data, ch = '.' ∨ isDigitCell ch) →
      s.length ≠ 81 →
      validate (some s) = some "Expected puzzle to be 81 characters long") ∧
    (∀ s : String, s ≠ "" → (∀ ch ∈ s.data, ch = '.' ∨ isDigitCell ch) →
      s.length = 81 → validate (some s) = none) ∧
    apiSolve none = SolveResponse.error "Required field missing" := by
  have hchars : ∀ s : String, (∀ ch ∈ s.data, ch = '.' ∨ isDigitCell ch) →
      ¬ (s.data.any fun ch => !isPuzzleChar ch) = true := by
    intro s hgood
    simp only [List.any_eq_true, not_exists]
    rintro ch ⟨hch, hbad⟩
    simp only [isPuzzleChar, Bool.not_eq_eq_eq_not, Bool.not_true,
      decide_eq_false_iff_not] at hbad
    rcases hgood ch hch with hdot | hdig
    · exact hbad (Or.inr hdot)
    · exact hbad (Or.inl hdig)
  refine ⟨?_, ?_, ?_, ?_, rfl⟩
  · rintro x (rfl | rfl) <;> rfl
  · rintro s hne ⟨ch, hch, hbad⟩
    simp only [validate]
    rw [if_neg (by simp only [String.isEmpty_iff]; exact hne)]
    rw [if_pos ?_]
    rw [List.any_eq_true]
    refine ⟨ch, hch, ?_⟩
    simp only [isPuzzleChar, Bool.not_eq_eq_eq_not, Bool.not_true,
      decide_eq_false_iff_not]
    intro hp
    rcases hp with hdig | hdot
    · exact hbad (Or.inr hdig)
    · exact hbad (Or.inl hdot)
  · intro s hne hgood hlen
    simp only [validate]
    rw [if_neg (by simp only [String.isEmpty_iff]; exact hne),
      if_neg (hchars s hgood), if_pos hlen]
  · intro s hne hgood hlen
    simp only [validate]
    rw [if_neg (by simp only [String.isEmpty_iff]; exact hne),
      if_neg (hchars s hgood), if_neg (by rw [hlen]; omega)]

/-- Closed instances of C4, one per branch. -/
theorem validate_precedence_witness :
    validate (some "") = some "Required field missing" ∧
    validate (some "g.") = some "Invalid characters in puzzle" ∧
    validate (some "123") = some "Expected puzzle to be 81 characters long" ∧
    validate (some examplePuzzle) = none ∧
    apiSolve none = SolveResponse.error "Required field missing" := by
  have h := validate_precedence
  exact ⟨h.1 (some "") (Or.inr rfl),
    h.2.1 "g." (by decide) ⟨'g', by decide, by decide⟩,
    h.2.2.1 "123" (by decide) (by decide) (by decide),
    h.2.2.2.1 examplePuzzle (by decide) (by decide) (by decide),
    h.2.2.2.2⟩

/-- C3: the `/api/check` response is determined by the first failing check
in the fixed precedence: missing fields, then puzzle-shape validation (with
validate's reason text), then coordinate format, then value format, then
the placement-conflict computation. -/
theorem apiCheck_precedence (puzzle coordinate value : Option String) :
    ((fieldMissing puzzle ∨ fieldMissing coordinate ∨ fieldMissing value) →
      apiCheck puzzle coordinate value =
        CheckResponse.error "Required field(s) missing") ∧
    (¬(fieldMissing puzzle ∨ fieldMissing coordinate ∨ fieldMissing value) →
      ((∀ e, validate (some (puzzle.getD "")) = some e →
          apiCheck puzzle coordinate value = CheckResponse.error e) ∧
       (validate (some (puzzle.getD "")) = none →
         ¬ coordFormatOK (coordinate.getD "") →
         apiCheck puzzle coordinate value = CheckResponse.error "Invalid coordinate") ∧
       (validate (some (puzzle.getD "")) = none →
         coordFormatOK (coordinate.getD "") → ¬ valueFormatOK (value.getD "") →
         apiCheck puzzle coordinate value = CheckResponse.error "Invalid value") ∧
       (validate (some (puzzle.getD "")) = none →
         coordFormatOK (coordinate.getD "") → valueFormatOK (value.getD "") →
         apiCheck puzzle coordinate value =
           conflictResponse (puzzle.getD "") (coordinate.getD "")
             (value.getD "")))) := by
  by_cases hm : fieldMissing puzzle ∨ fieldMissing coordinate ∨ fieldMissing value
  · refine ⟨fun _ => ?_, fun hn => absurd hm hn⟩
    have hcond : (falsy puzzle || falsy coordinate || falsy value) = true := by
      simp only [Bool.or_eq_true, falsy_true_iff]
      tauto
    unfold apiCheck
    rw [if_pos hcond]
  · refine ⟨fun h => absurd h hm, fun _ => ?_⟩
    push_neg at hm
    obtain ⟨h1, h2, h3⟩ := hm
    rcases puzzle with _ | p
    · exact absurd (Or.inl rfl) h1
    rcases coordinate with _ | co
    · exact absurd (Or.inl rfl) h2
    rcases value with _ | v
    · exact absurd (Or.inl rfl) h3
    have f1 : falsy (some p) = false := (falsy_false_iff _).2 h1
    have f2 : falsy (some co) = false := (falsy_false_iff _).2 h2
    have f3 : falsy (some v) = false := (falsy_false_iff _).2 h3
    refine ⟨?_, ?_, ?_, ?_⟩
    · intro e he
      simp only [Option.getD_some] at he
      simp only [apiCheck, f1, f2, f3, Bool.or_self, Bool.false_or,
        Bool.false_eq_true, if_false, Option.getD_some, he]
    · intro hv hcoord
      simp only [Option.getD_some] at hv
      have hc : coordinateOK co = false := by
        cases hok : coordinateOK co
        · rfl
        · exact absurd ((coordinateOK_true_iff _).1 hok) hcoord
      simp only [apiCheck, f1, f2, f3, Bool.or_self, Bool.false_or,
        Bool.false_eq_true, if_false, Option.getD_some, hv, hc, Bool.not_false,
        if_true]
    · intro hv hcoord hval
      simp only [Option.getD_some] at hv
      have hc : coordinateOK co = true := (coordinateOK_true_iff _).2 hcoord
      have hvf : valueOK v = false := by
        cases hok : valueOK v
        · rfl
        · exact absurd ((valueOK_true_iff _).1 hok) hval
      simp only [apiCheck, f1, f2, f3, Bool.or_self, Bool.false_or,
        Bool.false_eq_true, if_false, Option.getD_some, hv, hc, hvf,
        Bool.not_true, Bool.not_false, if_true]
    · intro hv hcoord hval
      simp only [Option.getD_some] at hv
      exact apiCheck_eval p co v f1 f2 f3 hv ((coordinateOK_true_iff _).2 hcoord)
        ((valueOK_true_iff _).2 hval)

/-- Closed instances of C3, one per precedence branch. -/
theorem apiCheck_precedence_witness :
    apiCheck none (some "A1") (some "1") =
      CheckResponse.error "Required field(s) missing" ∧
    apiCheck (some "abc") (some "A1") (some "1") =
      CheckResponse.error "Invalid characters in puzzle" ∧
    apiCheck (some examplePuzzle) (some "L2") (some "3") =
      CheckResponse.error "Invalid coordinate" ∧
    apiCheck (some examplePuzzle) (some "A2") (some "10") =
      CheckResponse.error "Invalid value" ∧
    apiCheck (some examplePuzzle) (some "A2") (some "3") =
      conflictResponse examplePuzzle "A2" "3" := by
  refine ⟨?_, ?_, ?_, ?_, ?_⟩
  · exact (apiCheck_precedence none (some "A1") (some "1")).1 (Or.inl (Or.inl rfl))
  · exact ((apiCheck_precedence (some "abc") (some "A1") (some "1")).2 (by decide)).1
      "Invalid characters in puzzle" (by decide)
  · exact ((apiCheck_precedence (some examplePuzzle) (some "L2") (some "3")).2
      (by decide)).2.1 (by decide) (by decide)
  · exact ((apiCheck_precedence (some examplePuzzle) (some "A2") (some "10")).2
      (by decide)).2.2.1 (by decide) (by decide) (by decide)
  · exact ((apiCheck_precedence (some examplePuzzle) (some "A2") (some "3")).2
      (by decide)).2.2.2 (by decide) (by decide) (by decide)

/-- C5: once every input validation passes, the handler's response is built
from the three placement checks: the conflict list collects each violated
axis exactly once in the order row, column, region (it is a sublist of
`["row", "column", "region"]`), a non-empty list yields the invalid
response carrying it, and an empty list yields exactly the valid
response. -/
theorem apiCheck_conflict_collection (p co v : String) (hp : p ≠ "") (hco : co ≠ "")
    (hv : v ≠ "") (hval : validate (some p) = none) (hcoord : coordFormatOK co)
    (hvfmt : valueFormatOK v) :
    apiCheck (some p) (some co) (some v) =
      (if conflictList p co v = [] then CheckResponse.valid
       else CheckResponse.invalid (conflictList p co v)) ∧
    conflictList p co v =
      (if checkRowPlacement p (co.data.getD 0 ' ') (co.data.getD 1 ' ')
          (v.data.getD 0 ' ') = false then ["row"] else []) ++
      (if checkColPlacement p (co.data.getD 0 ' ') (co.data.getD 1 ' ')
          (v.data.getD 0 ' ') = false then ["column"] else []) ++
      (if checkRegionPlacement p (co.data.getD 0 ' ') (co.data.getD 1 ' ')
          (v.data.getD 0 ' ') = false then ["region"] else []) ∧
    (conflictList p co v).Sublist ["row", "column", "region"] := by
  have hf1 : falsy (some p) = false := (falsy_false_iff _).2 (by
    rintro (h | h)
    · cases h
    · exact hp (Option.some.inj h))
  have hf2 : falsy (some co) = false := (falsy_false_iff _).2 (by
    rintro (h | h)
    · cases h
    · exact hco (Option.some.inj h))
  have hf3 : falsy (some v) = false := (falsy_false_iff _).2 (by
    rintro (h | h)
    · cases h
    · exact hv (Option.some.inj h))
  refine ⟨?_, ?_, ?_⟩
  · rw [apiCheck_eval p co v hf1 hf2 hf3 hval ((coordinateOK_true_iff _).2 hcoord)
      ((valueOK_true_iff _).2 hvfmt)]
    simp only [conflictResponse, List.isEmpty_iff]
  · simp only [conflictList, Bool.not_eq_eq_eq_not, Bool.not_true]
  · unfold conflictList
    dsimp only
    rcases hR : checkRowPlacement p (co.data.getD 0 ' ') (co.data.getD 1 ' ')
        (v.data.getD 0 ' ') <;>
      rcases hC : checkColPlacement p (co.data.getD 0 ' ') (co.data.getD 1 ' ')
        (v.data.getD 0 ' ') <;>
      rcases hG : checkRegionPlacement p (co.data.getD 0 ' ') (co.data.getD 1 ' ')
        (v.data.getD 0 ' ') <;>
      decide

lemma falsy_some_mk_cons (a : Char) (l : List Char) :
    falsy (some (String.mk (a :: l))) = false := by
  rw [falsy_false_iff]
  rintro (h | h)
  · cases h
  · have hd := congrArg String.data (Option.some.inj h)
    simp at hd

lemma coordinateOK_mk : ∀ r < 9, ∀ c < 9,
    coordinateOK (String.mk [rowLetter r, columnDigit c]) = true := by decide

/-- C7: when the target cell already contains exactly the candidate value
and that value occurs nowhere else in the target's row, column or 3x3
region, all three canonical placement checks return true and the
`/api/check` handler responds `{"valid": true}` — the engine resolves the
self-placement question in favour of "no conflict". -/
theorem self_placement_no_conflict (s : String) (hlen : s.length = 81)
    (halph : alphabetOK (stringToGrid s)) (r c : Nat) (hr : r < 9) (hc : c < 9)
    (v : Char) (hv : isDigitCell v)
    (hself : cellAt (stringToGrid s) r c = v)
    (hrow : ∀ i < 9, i ≠ c → cellAt (stringToGrid s) r i ≠ v)
    (hcol : ∀ i < 9, i ≠ r → cellAt (stringToGrid s) i c ≠ v)
    (hreg : ∀ r' c', r' / 3 = r / 3 → c' / 3 = c / 3 → ¬(r' = r ∧ c' = c) →
      cellAt (stringToGrid s) r' c' ≠ v) :
    checkRowPlacement s (rowLetter r) (columnDigit c) v = true ∧
    checkColPlacement s (rowLetter r) (columnDigit c) v = true ∧
    checkRegionPlacement s (rowLetter r) (columnDigit c) v = true ∧
    apiCheck (some s) (some (String.mk [rowLetter r, columnDigit c]))
      (some (String.mk [v])) = CheckResponse.valid := by
  have hrowT : checkRowPlacement s (rowLetter r) (columnDigit c) v = true := by
    rw [checkRowPlacement_true_iff]
    simp only [letterToNumber_rowLetter r hr, columnToIndex_columnDigit c hc]
    intro i hi
    refine ⟨fun hie => ?_, fun hne => hrow i hi hne⟩
    subst hie
    exact Or.inr hself
  have hcolT : checkColPlacement s (rowLetter r) (columnDigit c) v = true := by
    rw [checkColPlacement_true_iff]
    simp only [letterToNumber_rowLetter r hr, columnToIndex_columnDigit c hc]
    intro i hi
    refine ⟨fun hie => ?_, fun hne => hcol i hi hne⟩
    subst hie
    exact Or.inr hself
  have hregT : checkRegionPlacement s (rowLetter r) (columnDigit c) v = true := by
    rw [checkRegionPlacement_true_iff]
    simp only [letterToNumber_rowLetter r hr, columnToIndex_columnDigit c hc]
    intro r' c' h3r h3c
    refine ⟨?_, fun hne => hreg r' c' h3r h3c hne⟩
    rintro ⟨e1, e2⟩
    subst e1
    subst e2
    exact Or.inr hself
  refine ⟨hrowT, hcolT, hregT, ?_⟩
  have hf1 : falsy (some s) = false := (falsy_false_iff _).2 (by
    rintro (h | h)
    · cases h
    · rw [Option.some.inj h] at hlen
      exact absurd hlen (by decide))
  have hf2 : falsy (some (String.mk [rowLetter r, columnDigit c])) = false :=
    falsy_some_mk_cons _ _
  have hf3 : falsy (some (String.mk [v])) = false := falsy_some_mk_cons _ _
  have hval := validate_none_of s hlen halph
  have hcoord := coordinateOK_mk r hr c hc
  have hvOK : valueOK (String.mk [v]) = true := by
    unfold valueOK isNonzeroDigit
    simp only [Bool.and_eq_true, decide_eq_true_eq]
    exact ⟨rfl, hv⟩
  rw [apiCheck_eval _ _ _ hf1 hf2 hf3 hval hcoord hvOK]
  have hcl : conflictList s (String.mk [rowLetter r, columnDigit c])
      (String.mk [v]) = [] := by
    unfold conflictList
    dsimp only
    rw [show (String.mk [rowLetter r, columnDigit c]).data.getD 0 ' ' = rowLetter r
        from rfl,
      show (String.mk [rowLetter r, columnDigit c]).data.getD 1 ' ' = columnDigit c
        from rfl,
      show (String.mk [v]).data.getD 0 ' ' = v from rfl, hrowT, hcolT, hregT]
    rfl
  unfold conflictResponse
  rw [hcl]
  rfl

/-- Closed instance of C7: on the puzzle whose only given is a `1` at A1,
re-checking `1` at A1 passes all three checks and the route answers
`{"valid": true}`. -/
theorem self_placement_no_conflict_witness :
    checkRowPlacement singletonPuzzle (rowLetter 0) (columnDigit 0) '1' = true ∧
    checkColPlacement singletonPuzzle (rowLetter 0) (columnDigit 0) '1' = true ∧
    checkRegionPlacement singletonPuzzle (rowLetter 0) (columnDigit 0) '1' = true ∧
    apiCheck (some singletonPuzzle) (some (String.mk [rowLetter 0, columnDigit 0]))
      (some (String.mk ['1'])) = CheckResponse.valid :=
  self_placement_no_conflict singletonPuzzle (by decide) (by decide) 0 0 (by decide)
    (by decide) '1' (by decide) (by decide) (by decide) (by decide)
    (by
      intro r' c' h3r h3c hne
      have hr3 : r' < 3 := by omega
      have hc3 : c' < 3 := by omega
      interval_cases r' <;> interval_cases c' <;>
        first
          | decide
          | exact absurd ⟨rfl, rfl⟩ hne)

/-- Closed instance of C5: a legal placement on the example puzzle yields
exactly the valid response. -/
theorem apiCheck_conflict_collection_witness :
    apiCheck (some examplePuzzle) (some "A2") (some "3") = CheckResponse.valid := by
  have h := apiCheck_conflict_collection examplePuzzle "A2" "3" (by decide) (by decide)
    (by decide) (by decide) (by decide) (by decide)
  rw [h.1, if_pos (by decide)]

end Sudoku
